import Mathlib

/-!
Verification development for the instant-chat-reborn repository: a shallow
embedding of the backing-store schema (supabase migrations, types.ts), the
SQL function find_or_create_personal_chat, the row-level security policies,
and the client-side reconciliation logic of the React components, together
with theorems settling the specification claims C1 through C10.

Identifiers (uuid values in the source) and timestamps (ISO strings whose
comparisons go through Date.getTime) are abstracted as natural numbers.
-/

namespace InstantChat

/-- SQL enum chat_type from the migration in src/unnamed/part_010:
CREATE TYPE chat_type AS ENUM ('personal', 'group', 'channel'). -/
inductive ChatType
  | personal
  | group
  | channel
deriving DecidableEq, Repr

/-- Row of public.chats, fields per types.ts and the migrations
(src/unnamed/part_010 adds chat_type, is_pinned, is_archived, is_muted,
invite_link; defaults: chat_type personal, flags false, invite_link null). -/
structure ChatsRow where
  id : Nat
  name : String
  avatar_url : Option String
  chat_type : ChatType
  is_group : Bool
  is_pinned : Bool
  is_archived : Bool
  is_muted : Bool
  invite_link : Option String
  created_by : Nat
  updated_at : Nat
  description : Option String
deriving DecidableEq, Repr

/-- Row of public.chat_members; the four capability columns are added in
src/unnamed/part_010 with defaults can_send_messages true and the other
three false; role is a string ('admin' or 'member') per types.ts. -/
structure ChatMembersRow where
  chat_id : Nat
  user_id : Nat
  role : String
  can_send_messages : Bool
  can_add_members : Bool
  can_pin_messages : Bool
  can_delete_messages : Bool
deriving DecidableEq, Repr

/-- Row of public.messages, fields per types.ts (the subset the claims use). -/
structure MessagesRow where
  id : Nat
  chat_id : Nat
  sender_id : Nat
  content : Option String
  message_type : String
  file_url : Option String
  file_name : Option String
  created_at : Nat
deriving DecidableEq, Repr

/-- Row of public.profiles (the subset the claims use); last_seen is the
nullable timestamp written by useOnlineStatus (src/unnamed/part_008). -/
structure ProfilesRow where
  id : Nat
  first_name : Option String
  last_name : Option String
  username : Option String
  avatar_url : Option String
  is_online : Bool
  last_seen : Option Nat
deriving DecidableEq, Repr

/-- The backing store: the four tables the claims touch, plus an id
allocator standing for gen_random_uuid and a clock standing for now(). -/
structure Store where
  chats : List ChatsRow
  chat_members : List ChatMembersRow
  messages : List MessagesRow
  profiles : List ProfilesRow
  next_id : Nat
  clock : Nat
deriving DecidableEq, Repr

/-- The store with no rows. -/
def emptyStore : Store :=
  { chats := [], chat_members := [], messages := [], profiles := [],
    next_id := 0, clock := 0 }

/-!
Chat Directory Reconciler sort (claim C3).

Source: src/src/components/ChatList.tsx, fetchChats, lines 97-103, and the
identical comparator in src/unnamed/part_001 lines 139-143:

  .sort((a, b) =>
    if (a.is_pinned and not b.is_pinned) return -1;
    if (not a.is_pinned and b.is_pinned) return 1;
    return new Date(b.updated_at).getTime() - new Date(a.updated_at).getTime())

The entries fed to the comparator carry the chats row fields, so the
comparator is embedded directly over ChatsRow. Array.prototype.sort is
specified to be stable, and for a comparator that is induced by a total
preorder (as proved below) every stable sort computes the same output, so
the sort is modelled by insertion sort over the relation chatCmp a b ≤ 0.
-/

/-- The comparator body from fetchChats, returning a signed number. -/
def chatCmp (a b : ChatsRow) : Int :=
  if a.is_pinned && !b.is_pinned then -1
  else if !a.is_pinned && b.is_pinned then 1
  else (b.updated_at : Int) - (a.updated_at : Int)

/-- The order induced by the comparator: a may come no later than b. -/
def chatBefore (a b : ChatsRow) : Prop := chatCmp a b ≤ 0

instance : DecidableRel chatBefore := fun a b =>
  Int.decLe (chatCmp a b) 0

instance : IsTotal ChatsRow chatBefore := by
  constructor
  intro a b
  unfold chatBefore chatCmp
  cases ha : a.is_pinned <;> cases hb : b.is_pinned <;> simp <;> omega

instance : IsTrans ChatsRow chatBefore := by
  constructor
  intro a b c hab hbc
  unfold chatBefore chatCmp at *
  cases ha : a.is_pinned <;> cases hb : b.is_pinned <;> cases hc : c.is_pinned <;>
    simp_all <;> omega

/-- The sort applied by fetchChats to the joined chat rows. -/
def fetchChatsSort (l : List ChatsRow) : List ChatsRow :=
  List.insertionSort chatBefore l

/-- The sort-claim tie rule as the specification states it: entries with
equal is_pinned and equal updated_at appear in ascending id order. -/
def tiesOrderedById (l : List ChatsRow) : Prop :=
  l.Pairwise fun a b =>
    a.is_pinned = b.is_pinned → a.updated_at = b.updated_at → a.id ≤ b.id

instance (l : List ChatsRow) : Decidable (tiesOrderedById l) := by
  unfold tiesOrderedById
  infer_instance

/-- Two unpinned chats with the same updated_at but descending ids, listed
in fetch order: a tie the claim says is broken by id. -/
def tieChatHighId : ChatsRow :=
  { id := 2, name := "b", avatar_url := none, chat_type := ChatType.group,
    is_group := true, is_pinned := false, is_archived := false,
    is_muted := false, invite_link := none, created_by := 7,
    updated_at := 100, description := none }

/-- Companion row for the tie: same flags and updated_at, smaller id. -/
def tieChatLowId : ChatsRow :=
  { tieChatHighId with id := 1, name := "a" }

/-!
Personal-Chat Deduplication (claims C1, C8).

Source: find_or_create_personal_chat in
src/supabase/migrations/20250611074952-....sql lines 104-156. The function
first runs a SELECT over chat_members joined with itself and with chats
(caller is a member, other_user_id is a member, chat_type = 'personal',
is_group = false), returns the found id if any, and otherwise inserts a new
chats row plus two chat_members rows and returns the new id. No migration
declares any uniqueness constraint over the member pair, and the function
has no exception handler, so in the embedding the insert is a total
operation that always succeeds.
-/

/-- Does chat_members hold a row joining chat c with user u. -/
def isMemberOf (s : Store) (c u : Nat) : Bool :=
  s.chat_members.any fun m => m.chat_id == c && m.user_id == u

/-- The chats satisfying the lookup join of find_or_create_personal_chat:
the caller and other_user_id are both members, chat_type = 'personal' and
is_group = false. SELECT INTO takes one row; the embedding fixes row order
to be list order, so head? of this list is the selected row. -/
def personalChatMatches (s : Store) (uid other_user_id : Nat) : List ChatsRow :=
  s.chats.filter fun c =>
    isMemberOf s c.id uid && isMemberOf s c.id other_user_id &&
      c.chat_type == ChatType.personal && !c.is_group

/-- The SELECT cm1.chat_id INTO existing_chat_id lookup. -/
def lookupPersonalChat (s : Store) (uid other_user_id : Nat) : Option Nat :=
  (personalChatMatches s uid other_user_id).head?.map fun c => c.id

/-- COALESCE(TRIM(CONCAT(first_name, ' ', last_name)), username, 'Чат'):
CONCAT ignores NULL arguments and TRIM of a non-null string is non-null,
so the first COALESCE argument is always taken (possibly the empty
string); with no profile row the record fields are NULL and the result
trims to the empty string. -/
def personalChatName (p : Option ProfilesRow) : String :=
  match p with
  | none => ""
  | some pr => ((pr.first_name.getD "" ++ " ") ++ pr.last_name.getD "").trim

/-- A chat_members row as inserted by the code paths in scope: the explicit
columns (chat_id, user_id, role) plus the column defaults from
src/unnamed/part_010 (can_send_messages true, the other three false). -/
def memberRow (chat_id user_id : Nat) (role : String) : ChatMembersRow :=
  { chat_id := chat_id, user_id := user_id, role := role,
    can_send_messages := true, can_add_members := false,
    can_pin_messages := false, can_delete_messages := false }

/-- The chats row the create branch of find_or_create_personal_chat
inserts: INSERT INTO chats (name, chat_type, is_group, created_by,
avatar_url) with the remaining columns at their defaults. -/
def newPersonalChat (s : Store) (uid other_user_id : Nat) : ChatsRow :=
  let prof := s.profiles.find? fun p => p.id == other_user_id
  { id := s.next_id
    name := personalChatName prof
    avatar_url := prof.bind fun p => p.avatar_url
    chat_type := ChatType.personal
    is_group := false
    is_pinned := false
    is_archived := false
    is_muted := false
    invite_link := none
    created_by := uid
    updated_at := s.clock
    description := none }

/-- The create branch of find_or_create_personal_chat: the new chats row
followed by the two chat_members rows (caller as 'admin', other user as
'member'), returning the new id. -/
def insertPersonalChat (s : Store) (uid other_user_id : Nat) : Nat × Store :=
  (s.next_id,
    { s with
        chats := s.chats ++ [newPersonalChat s uid other_user_id]
        chat_members := s.chat_members ++
          [memberRow s.next_id uid "admin",
           memberRow s.next_id other_user_id "member"]
        next_id := s.next_id + 1 })

/-- The whole RPC body: lookup, early return when found, otherwise insert. -/
def find_or_create_personal_chat (s : Store) (uid other_user_id : Nat) :
    Nat × Store :=
  match lookupPersonalChat s uid other_user_id with
  | some cid => (cid, s)
  | none => insertPersonalChat s uid other_user_id

/-!
Race model for claim C1. Under the default READ COMMITTED isolation each
concurrent invocation of the RPC executes its SELECT against a snapshot
and later its INSERT; an invocation is therefore split into two atomic
steps, lookup and insert, interleaved by a schedule. Nothing in the schema
can make the insert fail, so the insert step is total.
-/

/-- Progress of one in-flight invocation of the RPC. -/
inductive Phase
  | start
  | looked (found : Option Nat)
  | finished (ret : Nat)
deriving DecidableEq, Repr

/-- One atomic step of an invocation by uid toward other_user_id. -/
def stepCall (s : Store) (uid other_user_id : Nat) (ph : Phase) :
    Phase × Store :=
  match ph with
  | Phase.start => (Phase.looked (lookupPersonalChat s uid other_user_id), s)
  | Phase.looked (some cid) => (Phase.finished cid, s)
  | Phase.looked none =>
      let r := insertPersonalChat s uid other_user_id
      (Phase.finished r.1, r.2)
  | Phase.finished cid => (Phase.finished cid, s)

/-- Shared store plus the progress of the two concurrent invocations:
invocation 1 is u1 calling toward u2, invocation 2 is u2 toward u1. -/
structure RaceState where
  store : Store
  phase1 : Phase
  phase2 : Phase
deriving DecidableEq, Repr

/-- Run one step of the scheduled invocation (true for invocation 1). -/
def raceStep (u1 u2 : Nat) (w : Bool) (rs : RaceState) : RaceState :=
  if w then
    let r := stepCall rs.store u1 u2 rs.phase1
    { rs with phase1 := r.1, store := r.2 }
  else
    let r := stepCall rs.store u2 u1 rs.phase2
    { rs with phase2 := r.1, store := r.2 }

/-- Run a schedule of interleaved steps from an initial store. -/
def runRace (u1 u2 : Nat) (sched : List Bool) (s : Store) : RaceState :=
  sched.foldl (fun rs w => raceStep u1 u2 w rs)
    { store := s, phase1 := Phase.start, phase2 := Phase.start }

/-- A first user profile for concrete runs. -/
def profileU1 : ProfilesRow :=
  { id := 1, first_name := some "Ann", last_name := some "Ab",
    username := none, avatar_url := none, is_online := false,
    last_seen := none }

/-- A second user profile for concrete runs. -/
def profileU2 : ProfilesRow :=
  { profileU1 with id := 2, first_name := some "Bob" }

/-- Initial store for the race: two signed-up users, no chats. -/
def raceStore0 : Store :=
  { emptyStore with profiles := [profileU1, profileU2], next_id := 5 }

/-!
Store operations for the reachable-state invariant (claim C2) and the
frame claim C10.
-/

/-- The chats row the saved-messages trigger inserts: name 'Избранное',
chat_type 'personal', created by the new profile, remaining columns at
their defaults. -/
def savedMessagesChat (s : Store) (new_profile_id : Nat) : ChatsRow :=
  { id := s.next_id, name := "Избранное", avatar_url := none,
    chat_type := ChatType.personal, is_group := false, is_pinned := false,
    is_archived := false, is_muted := false, invite_link := none,
    created_by := new_profile_id, updated_at := s.clock,
    description := some "Сохраняйте здесь важные сообщения" }

/-- Trigger function create_saved_messages_chat (src/unnamed/part_010
lines 43-69): inserts the saved-messages chats row, then INSERT INTO
chat_members SELECT id, NEW.id, 'admin' FROM chats WHERE created_by =
NEW.id AND name = 'Избранное' — one member row per matching chat. -/
def create_saved_messages_chat (s : Store) (new_profile_id : Nat) : Store :=
  let s1 :=
    { s with
        chats := s.chats ++ [savedMessagesChat s new_profile_id]
        next_id := s.next_id + 1 }
  let rows :=
    (s1.chats.filter fun ch =>
        ch.created_by == new_profile_id && ch.name == "Избранное").map
      fun ch => memberRow ch.id new_profile_id "admin"
  { s1 with chat_members := s1.chat_members ++ rows }

/-- Profile signup: the profiles insert followed by the on_profile_created
trigger firing create_saved_messages_chat. -/
def createProfile (s : Store) (p : ProfilesRow) : Store :=
  create_saved_messages_chat { s with profiles := s.profiles ++ [p] } p.id

/-- The chats row createGroup inserts: is_group true, chat_type 'channel'
when public else 'group'. -/
def newGroupChat (s : Store) (uid : Nat) (gname gdescr : String)
    (is_public : Bool) : ChatsRow :=
  { id := s.next_id, name := gname, avatar_url := none,
    chat_type := if is_public then ChatType.channel else ChatType.group,
    is_group := true, is_pinned := false, is_archived := false,
    is_muted := false, invite_link := none, created_by := uid,
    updated_at := s.clock, description := some gdescr }

/-- createGroup from src/src/components/NewChatDialog.tsx lines 123-185:
inserts the group chats row, then the creator as 'admin' and the selected
users as 'member'. -/
def createGroup (s : Store) (uid : Nat) (gname gdescr : String)
    (is_public : Bool) (selected : List Nat) : Store :=
  { s with
      chats := s.chats ++ [newGroupChat s uid gname gdescr is_public],
      chat_members := s.chat_members ++
        (memberRow s.next_id uid "admin" ::
          selected.map fun u => memberRow s.next_id u "member"),
      next_id := s.next_id + 1 }

/-- deleteChat from src/src/components/ChatList.tsx lines 153-173: delete
from chat_members where chat_id = chatId and user_id = the caller. -/
def deleteChat (s : Store) (uid chat_id : Nat) : Store :=
  { s with
      chat_members := s.chat_members.filter fun m =>
        !(m.chat_id == chat_id && m.user_id == uid) }

/-- The per-row effect of the invite-link update: only the row of the
chat, and only when the chat is a group or a channel (the client-side
guard of handleCopyInviteLink), receives the code. -/
def applyInviteLink (chat_id : Nat) (code : String) (c : ChatsRow) :
    ChatsRow :=
  if c.id == chat_id && (c.is_group || c.chat_type == ChatType.channel)
  then { c with invite_link := some code } else c

/-- handleCopyInviteLink from src/unnamed/part_005: when the chat has no
invite link yet and is a group or a channel, update chats set invite_link
to a fresh code where id = chat.id. -/
def generateInviteLink (s : Store) (chat_id : Nat) (code : String) : Store :=
  { s with chats := s.chats.map (applyInviteLink chat_id code) }

/-- Number of chat_members rows of one chat. -/
def memberCount (s : Store) (chat_id : Nat) : Nat :=
  (s.chat_members.filter fun m => m.chat_id == chat_id).length

/-- Stores reachable from the empty store through the chat-creating and
membership-mutating commands in the source. Freshness of generated
profile ids and the caller being a signed-up user mirror auth signup and
auth.uid(). -/
inductive Reachable : Store → Prop
  | init : Reachable emptyStore
  | profile (s : Store) (p : ProfilesRow) (hr : Reachable s)
      (hfresh : ∀ q ∈ s.profiles, q.id ≠ p.id) :
      Reachable (createProfile s p)
  | personal (s : Store) (u1 u2 : Nat) (hr : Reachable s) (hne : u1 ≠ u2)
      (h1 : ∃ q ∈ s.profiles, q.id = u1) :
      Reachable (find_or_create_personal_chat s u1 u2).2
  | group (s : Store) (uid : Nat) (gname gdescr : String) (is_public : Bool)
      (selected : List Nat) (hr : Reachable s)
      (hu : ∃ q ∈ s.profiles, q.id = uid) :
      Reachable (createGroup s uid gname gdescr is_public selected)
  | leave (s : Store) (uid chat_id : Nat) (hr : Reachable s) :
      Reachable (deleteChat s uid chat_id)
  | invite (s : Store) (chat_id : Nat) (code : String) (hr : Reachable s) :
      Reachable (generateInviteLink s chat_id code)

/-- Auxiliary invariant carried through the reachability induction: chat
ids are below the allocator, created_by and chat_id references resolve,
and personal chats satisfy the (amended) claim C2 shape. -/
def StoreInv (s : Store) : Prop :=
  (∀ c ∈ s.chats, c.id < s.next_id) ∧
  (∀ c ∈ s.chats, ∃ q ∈ s.profiles, q.id = c.created_by) ∧
  (∀ m ∈ s.chat_members, ∃ c ∈ s.chats, c.id = m.chat_id) ∧
  (∀ c ∈ s.chats, c.chat_type = ChatType.personal →
    memberCount s c.id ≤ 2 ∧ c.invite_link = none ∧ c.is_group = false)

/-- The reachable state right after the first signup, on which the
saved-messages chat violates the two-membership half of claim C2. -/
def savedState : Store := createProfile emptyStore profileU1

/-- The saved-messages chat row that createProfile emptyStore profileU1
produces. -/
def savedChat : ChatsRow :=
  { id := 0, name := "Избранное", avatar_url := none,
    chat_type := ChatType.personal, is_group := false, is_pinned := false,
    is_archived := false, is_muted := false, invite_link := none,
    created_by := 1, updated_at := 0,
    description := some "Сохраняйте здесь важные сообщения" }

/-!
Row-level security policies (claims C4 and C10).

Source: src/supabase/migrations/20250613003739-....sql.
-/

/-- Policy "Users can delete chats they created" (lines 75-76):
FOR DELETE USING (created_by = auth.uid()). -/
def chats_delete_policy (uid : Nat) (c : ChatsRow) : Bool :=
  c.created_by == uid

/-- Policy "Users can leave chats" (lines 124-125):
FOR DELETE on chat_members USING (user_id = auth.uid()). -/
def chat_members_delete_policy (uid : Nat) (m : ChatMembersRow) : Bool :=
  m.user_id == uid

/-!
Membership and Permission Authority (claim C5).
-/

/-- The four capability-gated actions of the Authority. -/
inductive AuthorityAction
  | addMembers
  | pinMessages
  | deleteMessages
  | sendMessages
deriving DecidableEq, Repr

/-- The capability column of chat_members corresponding to an action
(columns added in src/unnamed/part_010 lines 72-76). -/
def capability_flag (m : ChatMembersRow) : AuthorityAction → Bool
  | AuthorityAction.addMembers => m.can_add_members
  | AuthorityAction.pinMessages => m.can_pin_messages
  | AuthorityAction.deleteMessages => m.can_delete_messages
  | AuthorityAction.sendMessages => m.can_send_messages

/-- Modelled from the spec: the Membership and Permission Authority of
spec section 4.4 is not implemented as a decision function anywhere under
src — only the chat_members role and capability columns and their
defaults exist (src/unnamed/part_010) — so the decision rule is taken
from the spec's words: absence of membership denies, role admin allows
all four capability-gated actions regardless of the flags, role member
allows exactly the actions whose capability flag is true. -/
def authority_allows (mem : Option ChatMembersRow) (a : AuthorityAction) :
    Bool :=
  match mem with
  | none => false
  | some m => if m.role == "admin" then true else capability_flag m a

/-!
Notification feed (claim C6).

Source: src/src/components/NotificationCenter.tsx. fetchNotifications
sets unreadCount to the number of fetched rows with is_read false;
markAsRead (lines 85-95) maps the matching feed entry to is_read true and
sets the counter to Math.max(0, prev - 1) unconditionally; the list row
click handler (line 177) invokes markAsRead only when the rendered entry
is unread.
-/

/-- Row of public.notifications (src/unnamed/part_010 lines 31-40), the
fields the component reads. -/
structure NotificationRow where
  id : Nat
  type : String
  title : String
  body : String
  is_read : Bool
  created_at : Nat
deriving DecidableEq, Repr

/-- The component state: the feed and the unread counter. -/
structure NotificationCenterState where
  notifications : List NotificationRow
  unreadCount : Nat
deriving DecidableEq, Repr

/-- The per-entry update markAsRead maps over the feed: set is_read on
the entry whose id matches. -/
def markEntry (notificationId : Nat) (n : NotificationRow) :
    NotificationRow :=
  if n.id == notificationId then { n with is_read := true } else n

/-- markAsRead: flip is_read on the matching entries and decrement the
counter; Math.max(0, prev - 1) on a non-negative counter is exactly
truncated Nat subtraction. -/
def markAsRead (st : NotificationCenterState) (notificationId : Nat) :
    NotificationCenterState :=
  { notifications := st.notifications.map (markEntry notificationId),
    unreadCount := st.unreadCount - 1 }

/-- The guarded click path: the row's onClick runs markAsRead only when
the rendered notification is still unread. -/
def clickNotification (st : NotificationCenterState)
    (notificationId : Nat) : NotificationCenterState :=
  match st.notifications.find? fun n => n.id == notificationId with
  | some n => if n.is_read then st else markAsRead st notificationId
  | none => st

/-- Number of unread entries of a feed, the quantity fetchNotifications
stores into unreadCount. -/
def countUnread (l : List NotificationRow) : Nat :=
  (l.filter fun n => !n.is_read).length

/-- First unread notification of the concrete feed. -/
def exNotifA : NotificationRow :=
  { id := 1, type := "message", title := "a", body := "", is_read := false,
    created_at := 10 }

/-- Second unread notification of the concrete feed. -/
def exNotifB : NotificationRow :=
  { exNotifA with id := 2, title := "b", created_at := 11 }

/-- A feed state with two unread notifications and a consistent counter,
on which replaying markAsRead is observably not idempotent. -/
def exNotifState : NotificationCenterState :=
  { notifications := [exNotifA, exNotifB], unreadCount := 2 }

/-!
Message Stream Handler (claim C7).
-/

/-- Order of the message log: ascending created_at. -/
def created_at_le (a b : MessagesRow) : Prop :=
  a.created_at ≤ b.created_at

instance : DecidableRel created_at_le := fun a b =>
  Nat.decLe a.created_at b.created_at

instance : IsTotal MessagesRow created_at_le := by
  constructor
  intro a b
  unfold created_at_le
  omega

instance : IsTrans MessagesRow created_at_le := by
  constructor
  intro a b c hab hbc
  unfold created_at_le at *
  omega

/-- fetchMessages (src/src/components/ChatWindow.tsx lines 122-139): the
rows of the chat ordered by created_at ascending; the server-side ORDER BY
is embedded as a sort of the filtered rows. -/
def fetchMessages (s : Store) (chat_id : Nat) : List MessagesRow :=
  List.insertionSort created_at_le
    (s.messages.filter fun m => m.chat_id == chat_id)

/-- Modelled from the spec: the state update consuming the onNewMessage
insert delta of useRealtimeMessages (src/unnamed/part_009) is not present
under src — the hook only forwards the payload to its caller, and the
checked-in ChatWindow instead refetches on insert — so the apply step is
taken from spec section 4.5: append when created_at is at least the
current tail's, otherwise insert at the sorted position. -/
def applyInsert (log : List MessagesRow) (m : MessagesRow) :
    List MessagesRow :=
  match log.getLast? with
  | none => [m]
  | some t =>
      if t.created_at ≤ m.created_at then log ++ [m]
      else List.orderedInsert created_at_le m log

/-- A three-row sorted demo log for concrete instantiation. -/
def demoLog : List MessagesRow :=
  [{ id := 1, chat_id := 5, sender_id := 1, content := some "hi",
     message_type := "text", file_url := none, file_name := none,
     created_at := 10 },
   { id := 2, chat_id := 5, sender_id := 2, content := some "yo",
     message_type := "text", file_url := none, file_name := none,
     created_at := 20 }]

/-- An out-of-order insert delta: older than the current tail. -/
def demoMsg : MessagesRow :=
  { id := 3, chat_id := 5, sender_id := 1, content := some "late",
    message_type := "text", file_url := none, file_name := none,
    created_at := 15 }

/-- A store whose messages table holds the demo rows out of order. -/
def demoStore : Store :=
  { emptyStore with messages := [demoLog.getD 1 demoMsg, demoMsg, demoLog.getD 0 demoMsg] }

/-!
Presence Tracker (claim C9).

Source: useOnlineStatus, src/unnamed/part_008 lines 12-41 (the variant
that writes profile columns; src/src/hooks/useOnlineStatus.tsx delegates
the same transitions to an RPC). setTimeout-scale real time is abstracted
into discrete events.
-/

/-- The events the hook reacts to: the effect body on mount, the two
visibilitychange outcomes, beforeunload, the 30-second interval tick with
the visibility it observes, and the effect cleanup. -/
inductive PresenceEvent
  | mount
  | visible
  | hidden
  | unload
  | tick (isVisible : Bool)
  | cleanup
deriving DecidableEq, Repr

/-- One profiles update as issued by the hook. -/
structure PresenceWrite where
  is_online : Bool
  last_seen : Option Nat
deriving DecidableEq, Repr

/-- setOnline: is_online true, last_seen cleared to null. -/
def setOnlineWrite : PresenceWrite :=
  { is_online := true, last_seen := none }

/-- setOffline: is_online false, last_seen set to the current time. -/
def setOfflineWrite (now : Nat) : PresenceWrite :=
  { is_online := false, last_seen := some now }

/-- The profiles write each event produces (none when the interval fires
while the document is not visible). -/
def presenceWrite (now : Nat) : PresenceEvent → Option PresenceWrite
  | PresenceEvent.mount => some setOnlineWrite
  | PresenceEvent.visible => some setOnlineWrite
  | PresenceEvent.hidden => some (setOfflineWrite now)
  | PresenceEvent.unload => some (setOfflineWrite now)
  | PresenceEvent.tick true => some setOnlineWrite
  | PresenceEvent.tick false => none
  | PresenceEvent.cleanup => some (setOfflineWrite now)

/-- The events that realize the online-to-offline transition:
visibility-hidden, page-unload and teardown. -/
def offlineTransition (e : PresenceEvent) : Prop :=
  e = PresenceEvent.hidden ∨ e = PresenceEvent.unload ∨
    e = PresenceEvent.cleanup

/-!
Theorems.
-/

/-- C3 (counterexample): the fetchChats comparator has no id tiebreaker —
on two entries with equal is_pinned and equal updated_at the comparator
returns 0 and the stable sort keeps fetch order, so the higher id stays
first and the claimed tie rule fails. -/
theorem fetchChats_sort_no_id_tiebreak :
    fetchChatsSort [tieChatHighId, tieChatLowId] =
      [tieChatHighId, tieChatLowId] ∧
    tieChatHighId.is_pinned = tieChatLowId.is_pinned ∧
    tieChatHighId.updated_at = tieChatLowId.updated_at ∧
    tieChatLowId.id < tieChatHighId.id ∧
    ¬ tiesOrderedById (fetchChatsSort [tieChatHighId, tieChatLowId]) := by
  refine ⟨by decide, rfl, rfl, by decide, by decide⟩

/-- C3 (amended): the Chat Directory Reconciler output is a permutation
of the fetched entries, sorted by the key is_pinned descending then
updated_at descending, and pinned entries always precede unpinned ones
regardless of updated_at; entries tied on both keys keep their fetch
order (a stable sort) — there is no id tiebreaker. -/
theorem fetchChats_sort_amended (l : List ChatsRow) :
    List.Sorted chatBefore (fetchChatsSort l) ∧
    (fetchChatsSort l).Perm l ∧
    (fetchChatsSort l).Pairwise
      (fun a b => b.is_pinned = true → a.is_pinned = true) := by
  refine ⟨List.sorted_insertionSort chatBefore l,
    List.perm_insertionSort chatBefore l, ?_⟩
  refine (List.sorted_insertionSort chatBefore l).imp ?_
  intro a b hab hbpin
  cases ha : a.is_pinned
  · exfalso
    simp [chatBefore, chatCmp, ha, hbpin] at hab
  · rfl

/-- C1 (code_bug evaluation): interleaving the two RPC invocations so
that both lookups run before either insert makes both inserts succeed —
no uniqueness constraint exists and the insert step is total — so the two
callers get the distinct ids 5 and 6 and two chats of kind personal for
the pair remain. -/
theorem concurrent_find_or_create_duplicates :
    (runRace 1 2 [true, false, true, false] raceStore0).phase1 =
      Phase.finished 5 ∧
    (runRace 1 2 [true, false, true, false] raceStore0).phase2 =
      Phase.finished 6 ∧
    (personalChatMatches
        (runRace 1 2 [true, false, true, false] raceStore0).store 1 2).length
      = 2 := by
  refine ⟨by decide, by decide, by decide⟩

/-- C4: the chats delete policy permits a user exactly when the user is
the chat's creator; an admin membership of a non-creator does not grant
it, and the creator keeps it whatever the membership's capability flags
and role are. -/
theorem delete_chat_is_creator_only (uid : Nat) (c : ChatsRow)
    (m : ChatMembersRow) (_hm_user : m.user_id = uid)
    (_hm_chat : m.chat_id = c.id) :
    (chats_delete_policy uid c = true ↔ c.created_by = uid) ∧
    (m.role = "admin" → c.created_by ≠ uid →
      chats_delete_policy uid c = false) ∧
    (c.created_by = uid → m.role = "member" → m.can_add_members = false →
      m.can_pin_messages = false → m.can_delete_messages = false →
      chats_delete_policy uid c = true) := by
  refine ⟨?_, ?_, ?_⟩
  · simp [chats_delete_policy]
  · intro _ hne
    simp [chats_delete_policy, hne]
  · intro hc _ _ _ _
    simp [chats_delete_policy, hc]

/-- C4 witness: the policy evaluated for the creator of a concrete chat
whose membership is a plain member row with no capability flags. -/
theorem delete_chat_is_creator_only_witness :
    (memberRow 2 7 "member").user_id = 7 ∧
    (memberRow 2 7 "member").chat_id = tieChatHighId.id ∧
    tieChatHighId.created_by = 7 ∧
    chats_delete_policy 7 tieChatHighId = true :=
  ⟨rfl, rfl, rfl,
    (delete_chat_is_creator_only 7 tieChatHighId (memberRow 2 7 "member")
      rfl rfl).2.2 rfl rfl rfl rfl rfl⟩

/-- C5: the Authority allows each of the four capability-gated actions to
an admin membership regardless of the capability flags, and to a member
membership exactly when the corresponding capability flag is true. -/
theorem authority_capability_rule (m : ChatMembersRow)
    (a : AuthorityAction) :
    (m.role = "admin" → authority_allows (some m) a = true) ∧
    (m.role = "member" →
      authority_allows (some m) a = capability_flag m a) := by
  constructor
  · intro h
    simp [authority_allows, h]
  · intro h
    simp [authority_allows, h]

/-- C5 witness: the Authority evaluated on a concrete admin membership
with all-false optional flags and on a concrete plain member. -/
theorem authority_capability_rule_witness :
    (memberRow 3 4 "admin").role = "admin" ∧
    authority_allows (some (memberRow 3 4 "admin"))
      AuthorityAction.addMembers = true ∧
    (memberRow 3 4 "member").role = "member" ∧
    authority_allows (some (memberRow 3 4 "member"))
        AuthorityAction.addMembers =
      capability_flag (memberRow 3 4 "member") AuthorityAction.addMembers :=
  ⟨rfl,
    (authority_capability_rule (memberRow 3 4 "admin")
      AuthorityAction.addMembers).1 rfl,
    rfl,
    (authority_capability_rule (memberRow 3 4 "member")
      AuthorityAction.addMembers).2 rfl⟩

/-- C9: every profiles write carrying a non-null last_seen comes from an
online-to-offline transition event (visibility-hidden, page-unload or
teardown) and also sets is_online false, while the mount transition to
online and the heartbeat tick while visible write a null last_seen. -/
theorem last_seen_only_on_offline_transition (now : Nat)
    (e : PresenceEvent) (w : PresenceWrite)
    (hw : presenceWrite now e = some w) :
    (w.last_seen ≠ none → offlineTransition e ∧ w.is_online = false) ∧
    ((e = PresenceEvent.mount ∨ e = PresenceEvent.visible ∨
        e = PresenceEvent.tick true) → w.last_seen = none) := by
  cases e with
  | mount =>
    simp [presenceWrite] at hw
    subst hw
    simp [setOnlineWrite, offlineTransition]
  | visible =>
    simp [presenceWrite] at hw
    subst hw
    simp [setOnlineWrite, offlineTransition]
  | hidden =>
    simp [presenceWrite] at hw
    subst hw
    simp [setOfflineWrite, offlineTransition]
  | unload =>
    simp [presenceWrite] at hw
    subst hw
    simp [setOfflineWrite, offlineTransition]
  | tick v =>
    cases v
    · simp [presenceWrite] at hw
    · simp [presenceWrite] at hw
      subst hw
      simp [setOnlineWrite, offlineTransition]
  | cleanup =>
    simp [presenceWrite] at hw
    subst hw
    simp [setOfflineWrite, offlineTransition]

/-- C9 witness: the visibility-hidden event at time 42 produces the
offline write, whose non-null last_seen is licensed by the theorem. -/
theorem last_seen_only_on_offline_transition_witness :
    presenceWrite 42 PresenceEvent.hidden = some (setOfflineWrite 42) ∧
    (offlineTransition PresenceEvent.hidden ∧
      (setOfflineWrite 42).is_online = false) :=
  ⟨rfl,
    (last_seen_only_on_offline_transition 42 PresenceEvent.hidden
        (setOfflineWrite 42) rfl).1 (by simp [setOfflineWrite])⟩

/-- C10: the delete-chat command of the chat list removes exactly the
calling user's membership rows of that chat — the chats table, the
messages table and every other membership row are untouched — and the
chat_members delete policy permits a user to delete exactly the rows
whose user_id is their own. -/
theorem delete_chat_removes_only_own_membership (s : Store)
    (uid chat_id : Nat) :
    (deleteChat s uid chat_id).chats = s.chats ∧
    (deleteChat s uid chat_id).messages = s.messages ∧
    (∀ m : ChatMembersRow, m ∈ (deleteChat s uid chat_id).chat_members ↔
      (m ∈ s.chat_members ∧ ¬(m.chat_id = chat_id ∧ m.user_id = uid))) ∧
    (∀ m : ChatMembersRow,
      chat_members_delete_policy uid m = true ↔ m.user_id = uid) := by
  refine ⟨rfl, rfl, ?_, ?_⟩
  · intro m
    simp [deleteChat, List.mem_filter]
    tauto
  · intro m
    simp [chat_members_delete_policy]

/-- Marking an entry read does not change its id. -/
theorem markEntry_id (nid : Nat) (n : NotificationRow) :
    (markEntry nid n).id = n.id := by
  unfold markEntry
  split <;> rfl

/-- Marking the same entry twice equals marking it once. -/
theorem markEntry_idem (nid : Nat) (n : NotificationRow) :
    markEntry nid (markEntry nid n) = markEntry nid n := by
  cases h : n.id == nid <;> simp [markEntry, h]

/-- Unread count of a cons cell. -/
theorem countUnread_cons (x : NotificationRow) (l : List NotificationRow) :
    countUnread (x :: l) = (if x.is_read then 0 else 1) + countUnread l := by
  cases h : x.is_read <;> simp [countUnread, h, Nat.add_comm]

/-- Marking an id no entry carries leaves the feed unchanged. -/
theorem map_markEntry_of_not_mem (nid : Nat) (l : List NotificationRow)
    (h : ∀ y ∈ l, y.id ≠ nid) : l.map (markEntry nid) = l := by
  induction l with
  | nil => rfl
  | cons x xs ih =>
    simp only [List.map_cons]
    rw [ih fun y hy => h y (List.mem_cons_of_mem _ hy)]
    have hx : x.id ≠ nid := h x (List.mem_cons_self _ _)
    simp [markEntry, hx]

/-- On a feed with unique ids holding an unread entry of the marked id,
marking drops the number of unread entries by exactly one. -/
theorem countUnread_mark (nid : Nat) (l : List NotificationRow)
    (n : NotificationRow) (hids : (l.map fun x => x.id).Nodup)
    (hn : n ∈ l) (hid : n.id = nid) (hread : n.is_read = false) :
    countUnread (l.map (markEntry nid)) + 1 = countUnread l := by
  induction l with
  | nil => simp at hn
  | cons x xs ih =>
    simp only [List.map_cons, List.nodup_cons] at hids
    obtain ⟨hx_not, hxs⟩ := hids
    rcases List.mem_cons.mp hn with hnx | hnxs
    · subst hnx
      have hxs_ne : ∀ y ∈ xs, y.id ≠ nid := by
        intro y hy hcon
        exact hx_not
          (hid ▸ hcon ▸ List.mem_map_of_mem (fun z => z.id) hy)
      simp only [List.map_cons]
      rw [map_markEntry_of_not_mem nid xs hxs_ne]
      have hmx : markEntry nid n = { n with is_read := true } := by
        simp [markEntry, hid]
      rw [hmx, countUnread_cons, countUnread_cons, hread]
      simp
      omega
    · have hx_ne : x.id ≠ nid := by
        intro hcon
        exact hx_not
          (by rw [hcon, ← hid]; exact List.mem_map_of_mem (fun z => z.id) hnxs)
      have hmx : markEntry nid x = x := by simp [markEntry, hx_ne]
      simp only [List.map_cons]
      rw [hmx, countUnread_cons, countUnread_cons]
      have := ih hxs hnxs
      omega

/-- find? over a marked feed locates the marked image of the entry found
in the unmarked feed. -/
theorem find?_map_markEntry (nid : Nat) (l : List NotificationRow)
    (n : NotificationRow)
    (h : l.find? (fun x => x.id == nid) = some n) :
    (l.map (markEntry nid)).find? (fun x => x.id == nid) =
      some (markEntry nid n) := by
  induction l with
  | nil => simp at h
  | cons x xs ih =>
    cases hx : x.id == nid with
    | true =>
      simp only [List.find?_cons, hx] at h
      cases h
      simp only [List.map_cons, List.find?_cons, markEntry_id, hx]
    | false =>
      simp only [List.find?_cons, hx] at h
      simp only [List.map_cons, List.find?_cons, markEntry_id, hx]
      exact ih h

/-- The guarded click path is idempotent: a second click on the same
notification finds it already read and leaves the state alone. -/
theorem clickNotification_idem (st : NotificationCenterState) (nid : Nat) :
    clickNotification (clickNotification st nid) nid =
      clickNotification st nid := by
  unfold clickNotification
  cases hf : st.notifications.find? fun x => x.id == nid with
  | none => simp [hf]
  | some n0 =>
    cases hr : n0.is_read with
    | true => simp [hf, hr]
    | false =>
      simp only [hf, hr, if_neg Bool.false_ne_true]
      have hn0 := List.find?_some hf
      have hmap := find?_map_markEntry nid st.notifications n0 hf
      have hread_marked : (markEntry nid n0).is_read = true := by
        simp [markEntry, hn0]
      simp only [markAsRead] at hmap ⊢
      rw [hmap]
      simp [hread_marked]

/-- C6 (counterexample): on a feed with two unread notifications and a
consistent counter, marking the same notification read twice drops the
counter to 0 instead of leaving it at 1, so replaying markAsRead does
change the state. -/
theorem markAsRead_not_idempotent :
    (markAsRead exNotifState 1).unreadCount = 1 ∧
    (markAsRead (markAsRead exNotifState 1) 1).unreadCount = 0 ∧
    markAsRead (markAsRead exNotifState 1) 1 ≠ markAsRead exNotifState 1 := by
  exact ⟨by decide, by decide, by decide⟩

/-- C6 (amended): on a feed with unique ids, a consistent counter and an
unread notification of the marked id, markAsRead decrements the counter
by exactly one and keeps it consistent with the feed, and it is
idempotent on the feed itself; replaying the raw markAsRead decrements
the counter again (clamped at zero), and idempotence of the whole state
holds for the click path, which re-invokes markAsRead only on an entry
still unread. -/
theorem notification_mark_read_amended (st : NotificationCenterState)
    (nid : Nat) (n : NotificationRow)
    (hids : (st.notifications.map fun x => x.id).Nodup)
    (hcons : st.unreadCount = countUnread st.notifications)
    (hn : n ∈ st.notifications) (hid : n.id = nid)
    (hread : n.is_read = false) :
    (markAsRead st nid).unreadCount + 1 = st.unreadCount ∧
    (markAsRead st nid).unreadCount =
      countUnread (markAsRead st nid).notifications ∧
    (markAsRead (markAsRead st nid) nid).notifications =
      (markAsRead st nid).notifications ∧
    clickNotification (clickNotification st nid) nid =
      clickNotification st nid := by
  have hcount := countUnread_mark nid st.notifications n hids hn hid hread
  refine ⟨?_, ?_, ?_, clickNotification_idem st nid⟩
  · simp only [markAsRead]
    omega
  · simp only [markAsRead]
    omega
  · simp only [markAsRead, List.map_map]
    have hcomp : markEntry nid ∘ markEntry nid = markEntry nid :=
      funext (markEntry_idem nid)
    rw [hcomp]

/-- C6 witness: the amended theorem instantiated on the concrete
two-notification feed, marking the first notification. -/
theorem notification_mark_read_amended_witness :
    (exNotifState.notifications.map fun x => x.id).Nodup ∧
    exNotifState.unreadCount = countUnread exNotifState.notifications ∧
    exNotifA ∈ exNotifState.notifications ∧
    ((markAsRead exNotifState 1).unreadCount + 1 =
      exNotifState.unreadCount ∧
    (markAsRead exNotifState 1).unreadCount =
      countUnread (markAsRead exNotifState 1).notifications ∧
    (markAsRead (markAsRead exNotifState 1) 1).notifications =
      (markAsRead exNotifState 1).notifications ∧
    clickNotification (clickNotification exNotifState 1) 1 =
      clickNotification exNotifState 1) :=
  ⟨by decide, by decide, by decide,
    notification_mark_read_amended exNotifState 1 exNotifA (by decide)
      (by decide) (by decide) rfl rfl⟩

/-- Every element of a created_at-sorted log is at most its tail. -/
theorem mem_le_getLast (l : List MessagesRow) (t : MessagesRow)
    (hs : List.Sorted created_at_le l) (hl : l.getLast? = some t) :
    ∀ x ∈ l, created_at_le x t := by
  induction l with
  | nil => simp at hl
  | cons a l2 ih =>
    cases l2 with
    | nil =>
      simp at hl
      subst hl
      intro x hx
      simp at hx
      subst hx
      exact Nat.le_refl _
    | cons b l3 =>
      have hl2 : (b :: l3).getLast? = some t := by
        rwa [List.getLast?_cons_cons] at hl
      have hs2 : List.Sorted created_at_le (b :: l3) := hs.of_cons
      intro x hx
      rcases List.mem_cons.mp hx with hxa | hxl
      · subst hxa
        exact List.rel_of_sorted_cons hs t
          (List.mem_of_getLast?_eq_some hl2)
      · exact ih hs2 hl2 x hxl

/-- C7: the Message Stream Handler log is totally ordered by created_at
ascending — the on-open fetch returns the chat's history sorted
ascending, and applying an insert delta (append when its created_at is at
least the tail's, sorted insertion otherwise) to a sorted log yields a
sorted log, so an out-of-order delivered insert keeps the order. -/
theorem message_log_stays_sorted :
    (∀ (s : Store) (chat_id : Nat),
      List.Sorted created_at_le (fetchMessages s chat_id)) ∧
    (∀ (log : List MessagesRow) (m : MessagesRow),
      List.Sorted created_at_le log →
        List.Sorted created_at_le (applyInsert log m)) := by
  constructor
  · intro s chat_id
    exact List.sorted_insertionSort created_at_le _
  · intro log m hs
    unfold applyInsert
    cases hl : log.getLast? with
    | none => exact List.sorted_singleton m
    | some t =>
      by_cases h : t.created_at ≤ m.created_at
      · simp only [if_pos h]
        refine List.pairwise_append.2 ⟨hs, List.pairwise_singleton _ m, ?_⟩
        intro x hx y hy
        simp at hy
        subst hy
        have hxt := mem_le_getLast log t hs hl x hx
        unfold created_at_le at *
        omega
      · simp only [if_neg h]
        exact List.Sorted.orderedInsert m log hs

/-- C7 witness: the fetch over the demo store is sorted, and applying the
out-of-order demo delta to the sorted demo log keeps the log sorted. -/
theorem message_log_stays_sorted_witness :
    List.Sorted created_at_le (fetchMessages demoStore 5) ∧
    List.Sorted created_at_le (applyInsert demoLog demoMsg) :=
  ⟨message_log_stays_sorted.1 demoStore 5,
    message_log_stays_sorted.2 demoLog demoMsg (by decide)⟩

/-- The dedup lookup join is symmetric in the two users: both membership
conditions are conjuncts of the same filter. -/
theorem personalChatMatches_symm (s : Store) (u v : Nat) :
    personalChatMatches s u v = personalChatMatches s v u := by
  unfold personalChatMatches
  apply List.filter_congr
  intro c _
  cases h1 : isMemberOf s c.id u <;> cases h2 : isMemberOf s c.id v <;>
    simp [h1, h2]

/-- The lookup of find_or_create_personal_chat is direction-independent. -/
theorem lookupPersonalChat_symm (s : Store) (u v : Nat) :
    lookupPersonalChat s u v = lookupPersonalChat s v u := by
  unfold lookupPersonalChat
  rw [personalChatMatches_symm]

/-- The two membership rows of the create branch do not change membership
of any chat other than the new one. -/
theorem isMemberOf_insert_old (s : Store) (u1 u2 cid x : Nat)
    (hne : cid ≠ s.next_id) :
    isMemberOf (insertPersonalChat s u1 u2).2 cid x =
      isMemberOf s cid x := by
  have h : (s.next_id == cid) = false := by
    simp [Ne.symm hne]
  simp [isMemberOf, insertPersonalChat, memberRow, List.any_append, h]

/-- Both users of the pair are members of the newly inserted chat. -/
theorem isMemberOf_insert_new (s : Store) (u1 u2 x : Nat)
    (hx : x = u1 ∨ x = u2) :
    isMemberOf (insertPersonalChat s u1 u2).2 s.next_id x = true := by
  rcases hx with h | h <;> subst h <;>
    simp [isMemberOf, insertPersonalChat, memberRow, List.any_append]

/-- After the create branch runs from a store with no matching chat for
the pair, the lookup join (in either direction) matches exactly the new
chat. -/
theorem matches_after_insert (s : Store) (u1 u2 v w : Nat)
    (hfresh : ∀ c ∈ s.chats, c.id < s.next_id)
    (hnone : personalChatMatches s v w = [])
    (hv : v = u1 ∨ v = u2) (hw : w = u1 ∨ w = u2) :
    personalChatMatches (insertPersonalChat s u1 u2).2 v w =
      [newPersonalChat s u1 u2] := by
  have hchats : (insertPersonalChat s u1 u2).2.chats =
      s.chats ++ [newPersonalChat s u1 u2] := rfl
  unfold personalChatMatches
  rw [hchats, List.filter_append]
  have hold : (s.chats.filter fun c =>
      isMemberOf (insertPersonalChat s u1 u2).2 c.id v &&
        isMemberOf (insertPersonalChat s u1 u2).2 c.id w &&
        (c.chat_type == ChatType.personal) && !c.is_group) = [] := by
    have hcongr : (s.chats.filter fun c =>
        isMemberOf (insertPersonalChat s u1 u2).2 c.id v &&
          isMemberOf (insertPersonalChat s u1 u2).2 c.id w &&
          (c.chat_type == ChatType.personal) && !c.is_group) =
        s.chats.filter fun c =>
          isMemberOf s c.id v && isMemberOf s c.id w &&
            (c.chat_type == ChatType.personal) && !c.is_group := by
      apply List.filter_congr
      intro c hc
      rw [isMemberOf_insert_old s u1 u2 c.id v (Nat.ne_of_lt (hfresh c hc)),
        isMemberOf_insert_old s u1 u2 c.id w (Nat.ne_of_lt (hfresh c hc))]
    rw [hcongr]
    exact hnone
  rw [hold]
  have hid : (newPersonalChat s u1 u2).id = s.next_id := rfl
  have h1 : isMemberOf (insertPersonalChat s u1 u2).2
      (newPersonalChat s u1 u2).id v = true := by
    rw [hid]
    exact isMemberOf_insert_new s u1 u2 v hv
  have h2 : isMemberOf (insertPersonalChat s u1 u2).2
      (newPersonalChat s u1 u2).id w = true := by
    rw [hid]
    exact isMemberOf_insert_new s u1 u2 w hw
  have h3 : (newPersonalChat s u1 u2).chat_type = ChatType.personal := rfl
  have h4 : (newPersonalChat s u1 u2).is_group = false := rfl
  simp [h1, h2, h3, h4]

/-- After the create branch, the lookup in either direction finds the new
chat id. -/
theorem lookup_after_insert (s : Store) (u1 u2 v w : Nat)
    (hfresh : ∀ c ∈ s.chats, c.id < s.next_id)
    (hnone : personalChatMatches s v w = [])
    (hv : v = u1 ∨ v = u2) (hw : w = u1 ∨ w = u2) :
    lookupPersonalChat (insertPersonalChat s u1 u2).2 v w =
      some s.next_id := by
  unfold lookupPersonalChat
  rw [matches_after_insert s u1 u2 v w hfresh hnone hv hw]
  rfl

/-- C8: find_or_create_personal_chat is idempotent under sequential
invocation — after a first call over the pair, repeating the call in
either direction returns the same chat id and leaves the store unchanged,
creating no new chat. The freshness hypothesis says the id allocator is
ahead of every stored chat id (the gen_random_uuid contract). -/
theorem find_or_create_personal_chat_idempotent (s : Store) (u1 u2 : Nat)
    (_hne : u1 ≠ u2) (hfresh : ∀ c ∈ s.chats, c.id < s.next_id) :
    find_or_create_personal_chat
        (find_or_create_personal_chat s u1 u2).2 u1 u2 =
      find_or_create_personal_chat s u1 u2 ∧
    find_or_create_personal_chat
        (find_or_create_personal_chat s u1 u2).2 u2 u1 =
      find_or_create_personal_chat s u1 u2 := by
  cases hl : lookupPersonalChat s u1 u2 with
  | some cid =>
    constructor
    · simp [find_or_create_personal_chat, hl]
    · have hl2 : lookupPersonalChat s u2 u1 = some cid := by
        rw [lookupPersonalChat_symm s u2 u1]
        exact hl
      simp [find_or_create_personal_chat, hl, hl2]
  | none =>
    have hnone : personalChatMatches s u1 u2 = [] := by
      unfold lookupPersonalChat at hl
      cases hm : personalChatMatches s u1 u2 with
      | nil => rfl
      | cons a l =>
        rw [hm] at hl
        simp at hl
    have hnone2 : personalChatMatches s u2 u1 = [] := by
      rw [personalChatMatches_symm]
      exact hnone
    have hlook12 := lookup_after_insert s u1 u2 u1 u2 hfresh hnone
      (Or.inl rfl) (Or.inr rfl)
    have hlook21 := lookup_after_insert s u1 u2 u2 u1 hfresh hnone2
      (Or.inr rfl) (Or.inl rfl)
    have hfirst : find_or_create_personal_chat s u1 u2 =
        insertPersonalChat s u1 u2 := by
      unfold find_or_create_personal_chat
      rw [hl]
    constructor
    · rw [hfirst]
      unfold find_or_create_personal_chat
      rw [hlook12]
      rfl
    · rw [hfirst]
      unfold find_or_create_personal_chat
      rw [hlook21]
      rfl

/-- C8 witness: the idempotence theorem instantiated on the two-user
store with an empty chats table. -/
theorem find_or_create_personal_chat_idempotent_witness :
    (1 : Nat) ≠ 2 ∧
    (∀ c ∈ raceStore0.chats, c.id < raceStore0.next_id) ∧
    (find_or_create_personal_chat
        (find_or_create_personal_chat raceStore0 1 2).2 1 2 =
      find_or_create_personal_chat raceStore0 1 2 ∧
    find_or_create_personal_chat
        (find_or_create_personal_chat raceStore0 1 2).2 2 1 =
      find_or_create_personal_chat raceStore0 1 2) :=
  ⟨by decide, by decide,
    find_or_create_personal_chat_idempotent raceStore0 1 2 (by decide)
      (by decide)⟩

/-- Chats table after the saved-messages trigger. -/
theorem saved_chats (s : Store) (uid : Nat) :
    (create_saved_messages_chat s uid).chats =
      s.chats ++ [savedMessagesChat s uid] := rfl

/-- The trigger does not touch the profiles table. -/
theorem saved_profiles (s : Store) (uid : Nat) :
    (create_saved_messages_chat s uid).profiles = s.profiles := rfl

/-- Allocator value after the trigger. -/
theorem saved_next (s : Store) (uid : Nat) :
    (create_saved_messages_chat s uid).next_id = s.next_id + 1 := rfl

/-- With no pre-existing chat created by the new user, the trigger's
INSERT..SELECT adds exactly one admin membership, on the new chat. -/
theorem saved_members (s : Store) (uid : Nat)
    (hnochat : ∀ c ∈ s.chats, c.created_by ≠ uid) :
    (create_saved_messages_chat s uid).chat_members =
      s.chat_members ++ [memberRow s.next_id uid "admin"] := by
  have hproj : (create_saved_messages_chat s uid).chat_members =
      s.chat_members ++
        (((s.chats ++ [savedMessagesChat s uid]).filter fun ch =>
            ch.created_by == uid && ch.name == "Избранное").map
          fun ch => memberRow ch.id uid "admin") := rfl
  rw [hproj, List.filter_append]
  have h1 : (s.chats.filter fun ch =>
      ch.created_by == uid && ch.name == "Избранное") = [] := by
    rw [List.filter_eq_nil_iff]
    intro c hc
    simp [hnochat c hc]
  have h2 : ([savedMessagesChat s uid].filter fun ch =>
      ch.created_by == uid && ch.name == "Избранное") =
      [savedMessagesChat s uid] := by
    simp [savedMessagesChat]
  rw [h1, h2]
  rfl

/-- The saved-messages trigger preserves the store invariant when the new
user owns no pre-existing chat and has a profile row. -/
theorem create_saved_inv (s : Store) (uid : Nat) (hinv : StoreInv s)
    (hnochat : ∀ c ∈ s.chats, c.created_by ≠ uid)
    (hprof : ∃ q ∈ s.profiles, q.id = uid) :
    StoreInv (create_saved_messages_chat s uid) := by
  obtain ⟨hid, hfk, hmfk, hpers⟩ := hinv
  refine ⟨?_, ?_, ?_, ?_⟩
  · intro c hc
    rw [saved_chats] at hc
    rw [saved_next]
    rcases List.mem_append.mp hc with h | h
    · exact Nat.lt_succ_of_lt (hid c h)
    · simp at h
      subst h
      exact Nat.lt_succ_self s.next_id
  · intro c hc
    rw [saved_chats] at hc
    rw [saved_profiles]
    rcases List.mem_append.mp hc with h | h
    · exact hfk c h
    · simp at h
      subst h
      exact hprof
  · intro m hm
    rw [saved_members s uid hnochat] at hm
    rw [saved_chats]
    rcases List.mem_append.mp hm with h | h
    · obtain ⟨c, hc, hcid⟩ := hmfk m h
      exact ⟨c, List.mem_append_left _ hc, hcid⟩
    · simp at h
      subst h
      exact ⟨savedMessagesChat s uid, List.mem_append_right _ (by simp), rfl⟩
  · intro c hc hp
    rw [saved_chats] at hc
    have hcount : memberCount (create_saved_messages_chat s uid) c.id =
        (s.chat_members.filter fun m => m.chat_id == c.id).length +
          ([memberRow s.next_id uid "admin"].filter
            fun m => m.chat_id == c.id).length := by
      unfold memberCount
      rw [saved_members s uid hnochat, List.filter_append,
        List.length_append]
    rcases List.mem_append.mp hc with h | h
    · refine ⟨?_, (hpers c h hp).2.1, (hpers c h hp).2.2⟩
      rw [hcount]
      have hz : ([memberRow s.next_id uid "admin"].filter
          fun m => m.chat_id == c.id).length = 0 := by
        have hne : s.next_id ≠ c.id := (hid c h).ne'
        simp [memberRow, hne]
      have hold := (hpers c h hp).1
      unfold memberCount at hold
      omega
    · simp at h
      subst h
      refine ⟨?_, rfl, rfl⟩
      rw [hcount]
      have hz : (s.chat_members.filter
          fun m => m.chat_id == (savedMessagesChat s uid).id).length = 0 := by
        rw [List.length_eq_zero, List.filter_eq_nil_iff]
        intro m hm
        obtain ⟨c2, hc2, hcid⟩ := hmfk m hm
        have hlt : c2.id < s.next_id := hid c2 hc2
        simp [savedMessagesChat]
        omega
      rw [hz]
      simp [memberRow, savedMessagesChat]

/-- Profile signup preserves the invariant: the fresh profile id owns no
existing chat, so the trigger adds exactly the one-member saved chat. -/
theorem inv_createProfile (s : Store) (p : ProfilesRow) (hinv : StoreInv s)
    (hfresh : ∀ q ∈ s.profiles, q.id ≠ p.id) :
    StoreInv (createProfile s p) := by
  obtain ⟨hid, hfk, hmfk, hpers⟩ := hinv
  unfold createProfile
  apply create_saved_inv
  · refine ⟨hid, ?_, hmfk, hpers⟩
    intro c hc
    obtain ⟨q, hq, hqe⟩ := hfk c hc
    exact ⟨q, List.mem_append_left _ hq, hqe⟩
  · intro c hc heq
    obtain ⟨q, hq, hqe⟩ := hfk c hc
    exact hfresh q hq (by rw [hqe, heq])
  · exact ⟨p, List.mem_append_right _ (by simp), rfl⟩

/-- The dedup RPC preserves the invariant: in the create branch the new
personal chat receives exactly its two membership rows. -/
theorem inv_personal (s : Store) (u1 u2 : Nat) (hinv : StoreInv s)
    (h1 : ∃ q ∈ s.profiles, q.id = u1) :
    StoreInv (find_or_create_personal_chat s u1 u2).2 := by
  obtain ⟨hid, hfk, hmfk, hpers⟩ := hinv
  unfold find_or_create_personal_chat
  cases hl : lookupPersonalChat s u1 u2 with
  | some cid => exact ⟨hid, hfk, hmfk, hpers⟩
  | none =>
    have hchm : (insertPersonalChat s u1 u2).2.chat_members =
        s.chat_members ++ [memberRow s.next_id u1 "admin",
          memberRow s.next_id u2 "member"] := rfl
    refine ⟨?_, ?_, ?_, ?_⟩
    · intro c hc
      rcases List.mem_append.mp hc with h | h
      · exact Nat.lt_succ_of_lt (hid c h)
      · simp at h
        subst h
        exact Nat.lt_succ_self s.next_id
    · intro c hc
      rcases List.mem_append.mp hc with h | h
      · exact hfk c h
      · simp at h
        subst h
        exact h1
    · intro m hm
      rw [hchm] at hm
      rcases List.mem_append.mp hm with h | h
      · obtain ⟨c, hc, hcid⟩ := hmfk m h
        exact ⟨c, List.mem_append_left _ hc, hcid⟩
      · simp at h
        rcases h with h | h <;> subst h <;>
          exact ⟨newPersonalChat s u1 u2,
            List.mem_append_right _ (by simp), rfl⟩
    · intro c hc hp
      rcases List.mem_append.mp hc with h | h
      · refine ⟨?_, (hpers c h hp).2.1, (hpers c h hp).2.2⟩
        have hcount : memberCount (insertPersonalChat s u1 u2).2 c.id =
            (s.chat_members.filter fun m => m.chat_id == c.id).length +
              ([memberRow s.next_id u1 "admin",
                memberRow s.next_id u2 "member"].filter
                fun m => m.chat_id == c.id).length := by
          unfold memberCount
          rw [hchm, List.filter_append, List.length_append]
        have hz : ([memberRow s.next_id u1 "admin",
            memberRow s.next_id u2 "member"].filter
            fun m => m.chat_id == c.id).length = 0 := by
          have hne : s.next_id ≠ c.id := (hid c h).ne'
          simp [memberRow, hne]
        have hold := (hpers c h hp).1
        unfold memberCount at hold
        rw [hcount, hz]
        omega
      · simp at h
        subst h
        refine ⟨?_, rfl, rfl⟩
        have hcount : memberCount (insertPersonalChat s u1 u2).2
            (newPersonalChat s u1 u2).id =
            (s.chat_members.filter fun m =>
              m.chat_id == (newPersonalChat s u1 u2).id).length +
              ([memberRow s.next_id u1 "admin",
                memberRow s.next_id u2 "member"].filter
                fun m => m.chat_id == (newPersonalChat s u1 u2).id).length := by
          unfold memberCount
          rw [hchm, List.filter_append, List.length_append]
        have hz : (s.chat_members.filter fun m =>
            m.chat_id == (newPersonalChat s u1 u2).id).length = 0 := by
          rw [List.length_eq_zero, List.filter_eq_nil_iff]
          intro m hm
          obtain ⟨c2, hc2, hcid⟩ := hmfk m hm
          have hlt : c2.id < s.next_id := hid c2 hc2
          simp [newPersonalChat]
          omega
        rw [hcount, hz]
        simp [memberRow, newPersonalChat]

/-- createGroup preserves the invariant: the inserted chat is a group or
channel, never personal, and its member rows reference only it. -/
theorem inv_group (s : Store) (uid : Nat) (gname gdescr : String)
    (is_public : Bool) (selected : List Nat) (hinv : StoreInv s)
    (hu : ∃ q ∈ s.profiles, q.id = uid) :
    StoreInv (createGroup s uid gname gdescr is_public selected) := by
  obtain ⟨hid, hfk, hmfk, hpers⟩ := hinv
  have hrows : ∀ m ∈ memberRow s.next_id uid "admin" ::
      selected.map fun u => memberRow s.next_id u "member",
      m.chat_id = s.next_id := by
    intro m hm
    rcases List.mem_cons.mp hm with h | h
    · subst h
      rfl
    · obtain ⟨u, _, rfl⟩ := List.mem_map.mp h
      rfl
  refine ⟨?_, ?_, ?_, ?_⟩
  · intro c hc
    rcases List.mem_append.mp hc with h | h
    · exact Nat.lt_succ_of_lt (hid c h)
    · simp at h
      subst h
      exact Nat.lt_succ_self s.next_id
  · intro c hc
    rcases List.mem_append.mp hc with h | h
    · exact hfk c h
    · simp at h
      subst h
      exact hu
  · intro m hm
    rcases List.mem_append.mp hm with h | h
    · obtain ⟨c, hc, hcid⟩ := hmfk m h
      exact ⟨c, List.mem_append_left _ hc, hcid⟩
    · exact ⟨newGroupChat s uid gname gdescr is_public,
        List.mem_append_right _ (by simp), (hrows m h).symm⟩
  · intro c hc hp
    rcases List.mem_append.mp hc with h | h
    · refine ⟨?_, (hpers c h hp).2.1, (hpers c h hp).2.2⟩
      have hcount : memberCount
          (createGroup s uid gname gdescr is_public selected) c.id =
          (s.chat_members.filter fun m => m.chat_id == c.id).length +
            (((memberRow s.next_id uid "admin" ::
              selected.map fun u => memberRow s.next_id u "member").filter
              fun m => m.chat_id == c.id)).length := by
        have hchm : (createGroup s uid gname gdescr is_public
            selected).chat_members =
            s.chat_members ++ (memberRow s.next_id uid "admin" ::
              selected.map fun u => memberRow s.next_id u "member") := rfl
        unfold memberCount
        rw [hchm, List.filter_append, List.length_append]
      have hz : ((memberRow s.next_id uid "admin" ::
          selected.map fun u => memberRow s.next_id u "member").filter
          fun m => m.chat_id == c.id).length = 0 := by
        rw [List.length_eq_zero, List.filter_eq_nil_iff]
        intro m hm
        have := hrows m hm
        have hne : s.next_id ≠ c.id := (hid c h).ne'
        simp [this, hne]
      have hold := (hpers c h hp).1
      unfold memberCount at hold
      rw [hcount, hz]
      omega
    · simp at h
      subst h
      exfalso
      cases is_public <;> simp [newGroupChat] at hp

/-- Leaving a chat preserves the invariant: membership rows only go away. -/
theorem inv_leave (s : Store) (uid chat_id : Nat) (hinv : StoreInv s) :
    StoreInv (deleteChat s uid chat_id) := by
  obtain ⟨hid, hfk, hmfk, hpers⟩ := hinv
  have hchm : (deleteChat s uid chat_id).chat_members =
      s.chat_members.filter fun m =>
        !(m.chat_id == chat_id && m.user_id == uid) := rfl
  refine ⟨hid, hfk, ?_, ?_⟩
  · intro m hm
    rw [hchm] at hm
    exact hmfk m (List.mem_of_mem_filter hm)
  · intro c hc hp
    refine ⟨?_, (hpers c hc hp).2.1, (hpers c hc hp).2.2⟩
    have hsub : (((s.chat_members.filter fun m =>
        !(m.chat_id == chat_id && m.user_id == uid)).filter
        fun m => m.chat_id == c.id)).Sublist
        (s.chat_members.filter fun m => m.chat_id == c.id) :=
      List.Sublist.filter _ (List.filter_sublist _)
    have hlen := hsub.length_le
    have hold := (hpers c hc hp).1
    unfold memberCount at hold ⊢
    rw [hchm]
    omega

/-- Generating an invite link preserves the invariant: only group or
channel rows change, and only in their invite_link field. -/
theorem inv_invite (s : Store) (chat_id : Nat) (code : String)
    (hinv : StoreInv s) :
    StoreInv (generateInviteLink s chat_id code) := by
  obtain ⟨hid, hfk, hmfk, hpers⟩ := hinv
  have hg_id : ∀ c : ChatsRow, (applyInviteLink chat_id code c).id = c.id := by
    intro c
    unfold applyInviteLink
    split <;> rfl
  have hg_cb : ∀ c : ChatsRow,
      (applyInviteLink chat_id code c).created_by = c.created_by := by
    intro c
    unfold applyInviteLink
    split <;> rfl
  have hg_ct : ∀ c : ChatsRow,
      (applyInviteLink chat_id code c).chat_type = c.chat_type := by
    intro c
    unfold applyInviteLink
    split <;> rfl
  have hg_pers : ∀ c : ChatsRow, c.chat_type = ChatType.personal →
      c.is_group = false → applyInviteLink chat_id code c = c := by
    intro c hp hgr
    simp [applyInviteLink, hp, hgr]
  refine ⟨?_, ?_, ?_, ?_⟩
  · intro c hc
    obtain ⟨c0, hc0, rfl⟩ := List.mem_map.mp hc
    rw [hg_id]
    exact hid c0 hc0
  · intro c hc
    obtain ⟨c0, hc0, rfl⟩ := List.mem_map.mp hc
    rw [hg_cb]
    exact hfk c0 hc0
  · intro m hm
    obtain ⟨c0, hc0, hcid⟩ := hmfk m hm
    exact ⟨applyInviteLink chat_id code c0,
      List.mem_map_of_mem _ hc0, by rw [hg_id]; exact hcid⟩
  · intro c hc hp
    obtain ⟨c0, hc0, rfl⟩ := List.mem_map.mp hc
    rw [hg_ct] at hp
    have h0 := hpers c0 hc0 hp
    rw [hg_pers c0 hp h0.2.2]
    exact ⟨h0.1, h0.2.1, h0.2.2⟩

/-- Every reachable store satisfies the auxiliary invariant. -/
theorem reachable_inv (s : Store) (h : Reachable s) : StoreInv s := by
  induction h with
  | init =>
    refine ⟨?_, ?_, ?_, ?_⟩ <;> simp [emptyStore, StoreInv]
  | profile s p hr hfresh ih => exact inv_createProfile s p ih hfresh
  | personal s u1 u2 hr hne h1 ih => exact inv_personal s u1 u2 ih h1
  | group s uid gname gdescr is_public selected hr hu ih =>
    exact inv_group s uid gname gdescr is_public selected ih hu
  | leave s uid chat_id hr ih => exact inv_leave s uid chat_id ih
  | invite s chat_id code hr ih => exact inv_invite s chat_id code ih

/-- C2 (counterexample): the state right after the first signup is
reachable, its saved-messages chat has kind personal, and that chat has
exactly one membership, not two. -/
theorem personal_two_memberships_counterexample :
    Reachable savedState ∧ savedChat ∈ savedState.chats ∧
    savedChat.chat_type = ChatType.personal ∧
    memberCount savedState savedChat.id = 1 := by
  refine ⟨Reachable.profile emptyStore profileU1 Reachable.init ?_,
    by decide, rfl, by decide⟩
  intro q hq
  simp [emptyStore] at hq

/-- C2 (amended): on every reachable store, every chat of kind personal
has at most two memberships — exactly two when created by the dedup RPC
and exactly one for the saved-messages self-chat, and members can still
leave — and carries no invite token. -/
theorem personal_chat_membership_amended (s : Store) (hs : Reachable s) :
    ∀ c ∈ s.chats, c.chat_type = ChatType.personal →
      memberCount s c.id ≤ 2 ∧ c.invite_link = none := by
  intro c hc hp
  have h := (reachable_inv s hs).2.2.2 c hc hp
  exact ⟨h.1, h.2.1⟩

/-- C2 witness: the amended invariant instantiated on the reachable
first-signup state and its saved-messages chat. -/
theorem personal_chat_membership_amended_witness :
    savedChat ∈ savedState.chats ∧
    savedChat.chat_type = ChatType.personal ∧
    (memberCount savedState savedChat.id ≤ 2 ∧
      savedChat.invite_link = none) := by
  have hr : Reachable savedState :=
    Reachable.profile emptyStore profileU1 Reachable.init
      (by intro q hq; simp [emptyStore] at hq)
  exact ⟨by decide, rfl,
    personal_chat_membership_amended savedState hr savedChat (by decide) rfl⟩

end InstantChat
